import Mathlib

/-
  Verification development for the T-Trade repository (day-session trading
  controller with a React dashboard frontend).

  The definitions below are a shallow embedding of the repository's code:
  the frontend API module (watchlist / validation / data-source requests),
  the dashboard helpers in App.tsx (regime display, market-closed
  detection, next-trading-day search, timezone conversion, Sparkline), and
  - where the spec describes core components whose code is not in the
  repository snapshot (risk engine, execution engine, backtest layer) -
  models built from the spec text, marked as such in their doc comments.

  JavaScript numbers are modelled as rationals (the code performs only
  exact comparisons and ratios on them), JS strings as lists of
  characters, and fallible/async calls as explicit outcome parameters.
-/

namespace TTrade

/-! ## Frontend API module (src/unnamed/part_000): request inventory -/

/-- HTTP method of a request issued by the frontend API module. -/
inductive Method where
  | GET
  | POST
  | DELETE
deriving DecidableEq, Repr

/-- The backend endpoints addressed by the frontend API module. -/
inductive Endpoint where
  | dashboard          -- GET /api/dashboard
  | watchlist          -- GET and POST /api/watchlist
  | watchlistSymbol    -- DELETE /api/watchlist/:symbol
  | marketStatus       -- GET /api/market/status
  | stocksSymbol       -- GET /api/stocks/:symbol
  | validateSym        -- GET /api/validate/:symbol
  | datasource         -- GET and POST /api/datasource
  | datasourceConnect  -- POST /api/datasource/connect-tws
deriving DecidableEq, Repr

/-- A request the frontend API module can issue. -/
structure ApiRequest where
  endpoint : Endpoint
  method : Method
deriving DecidableEq, Repr

/-- Every `fetch` call present in the frontend API module, one entry per
call site, in source order: fetchDashboard, fetchWatchlist,
addToWatchlist, removeFromWatchlist, fetchMarketStatus, fetchStockStatus,
validateSymbol, the two calls inside addToWatchlistWithValidation,
getDataSource, setDataSource, connectTws. -/
def apiRequests : List ApiRequest :=
  [⟨.dashboard, .GET⟩,
   ⟨.watchlist, .GET⟩,
   ⟨.watchlist, .POST⟩,
   ⟨.watchlistSymbol, .DELETE⟩,
   ⟨.marketStatus, .GET⟩,
   ⟨.stocksSymbol, .GET⟩,
   ⟨.validateSym, .GET⟩,
   ⟨.validateSym, .GET⟩,
   ⟨.watchlist, .POST⟩,
   ⟨.datasource, .GET⟩,
   ⟨.datasource, .POST⟩,
   ⟨.datasourceConnect, .POST⟩]

/-- Endpoints whose responses carry core-owned state in the sense of the
spec (current StateMachine session state, RegimeClassification fields,
risk/trading-permission state): the dashboard payload, the per-stock
status payload and the market-status payload. Watchlist membership and
data-source selection are adapter/configuration state, owned by the glue
layers, not by the core decision stack. -/
def exposesCoreState : Endpoint → Bool
  | .dashboard => true
  | .marketStatus => true
  | .stocksSymbol => true
  | _ => false

/-- A request is a read-only query exactly when it uses GET. -/
def isReadOnlyQuery (r : ApiRequest) : Bool :=
  r.method = Method.GET

/-! ## Dashboard regime display helpers (App.tsx) -/

/-- A rendered icon: lucide component name plus its className string,
exactly as written in `getRegimeIcon`. -/
structure RegimeIcon where
  component : String
  className : String
deriving DecidableEq, Repr

/-- Embedding of `getRegimeIcon` (App.tsx): switch over the regime string
with a default arm. -/
def getRegimeIcon (regime : String) : RegimeIcon :=
  if regime = "trend_up" then ⟨"TrendingUp", "w-5 h-5 text-green-500"⟩
  else if regime = "trend_down" then ⟨"TrendingDown", "w-5 h-5 text-red-500"⟩
  else if regime = "range" then ⟨"Activity", "w-5 h-5 text-yellow-500"⟩
  else if regime = "event" then ⟨"AlertTriangle", "w-5 h-5 text-orange-500"⟩
  else ⟨"Activity", "w-5 h-5 text-gray-500"⟩

/-- Embedding of `getRegimeLabel` (App.tsx): record lookup with
`labels[regime] || regime` fallback (the input is echoed verbatim when it
is not a key of the record). -/
def getRegimeLabel (regime : String) : String :=
  if regime = "trend_up" then "上涨趋势"
  else if regime = "trend_down" then "下跌趋势"
  else if regime = "range" then "震荡"
  else if regime = "event" then "事件日"
  else if regime = "unknown" then "未知"
  else regime

/-- Embedding of `getRegimeColor` (App.tsx): record lookup with
`colors[regime] || colors['unknown']` fallback. -/
def getRegimeColor (regime : String) : String :=
  if regime = "trend_up" then "bg-green-100 text-green-800 border-green-200"
  else if regime = "trend_down" then "bg-red-100 text-red-800 border-red-200"
  else if regime = "range" then "bg-yellow-100 text-yellow-800 border-yellow-200"
  else if regime = "event" then "bg-orange-100 text-orange-800 border-orange-200"
  else "bg-gray-100 text-gray-800 border-gray-200"

/-- The regime label set of the spec data model. -/
def knownRegimes : List String :=
  ["trend_up", "trend_down", "range", "event", "unknown"]

/-! ## StockStatus (frontend types) and StockCard (App.tsx) -/

/-- Embedding of the `StockStatus` interface from the frontend type
definitions, together with the extra fields StockCard reads
(`sparkline`, `ma20`, `day_open`, `day_high`, `day_low`, `prev_close`).
Nullable fields of the interface become `Option`. -/
structure StockStatus where
  symbol : String
  name : String
  exchange : Option String
  price : ℚ
  vwap : ℚ
  vwap_diff_pct : ℚ
  above_vwap : Bool
  or5_high : Option ℚ
  or5_low : Option ℚ
  or15_high : Option ℚ
  or15_low : Option ℚ
  or15_complete : Bool
  regime : String
  regime_confidence : ℚ
  regime_reasons : List String
  updated_at : String
  sparkline : Option (List ℚ)
  ma20 : Option ℚ
  day_open : Option ℚ
  day_high : Option ℚ
  day_low : Option ℚ
  prev_close : Option ℚ

/-- Rendering of a nullable price field in StockCard:
`stock.ma20 ? dollars : dash` / `stock.day_open ? dollars : dash`. The
formatted number is kept abstract; only presence matters here. -/
inductive PriceCell where
  | dollars (v : ℚ)
  | dash
deriving DecidableEq

/-- StockCard renders a nullable numeric field as a dollar amount when
present and as the placeholder dash otherwise. -/
def renderOptPrice : Option ℚ → PriceCell
  | some v => .dollars v
  | none => .dash

/-- The sections of a rendered StockCard, in order of appearance in the
JSX tree. The Opening-Range panel carries the two nullable values it
displays. -/
inductive CardSection where
  | header (symbol : String) (regimeLabel : String) (icon : RegimeIcon)
  | priceInfo (price vwap : ℚ) (ma20 : PriceCell)
  | dayInfo (dayOpen dayHigh dayLow prevClose : PriceCell)
  | orPanel (high low : Option ℚ)
  | confidence (c : ℚ)
  | reasons (rs : List String)
  | updatedAt (s : String)

/-- Embedding of the StockCard JSX structure: the Opening-Range (OR15)
panel is emitted exactly under the `stock.or15_complete && (...)` guard;
all other sections are unconditional. -/
def renderStockCard (s : StockStatus) : List CardSection :=
  [CardSection.header s.symbol (getRegimeLabel s.regime) (getRegimeIcon s.regime),
   CardSection.priceInfo s.price s.vwap (renderOptPrice s.ma20),
   CardSection.dayInfo (renderOptPrice s.day_open) (renderOptPrice s.day_high)
     (renderOptPrice s.day_low) (renderOptPrice s.prev_close)]
  ++ (if s.or15_complete then [CardSection.orPanel s.or15_high s.or15_low] else [])
  ++ [CardSection.confidence s.regime_confidence,
      CardSection.reasons s.regime_reasons,
      CardSection.updatedAt s.updated_at]

/-! ## Sparkline (App.tsx) -/

/-- What the Sparkline component returns: either the no-data placeholder
div or an SVG chart with one point per datum, a line colour and the
current-price dot. -/
inductive SparklineView where
  | placeholder (width height : ℚ)
  | chart (points : List (ℚ × ℚ)) (lineColor : String) (dot : ℚ × ℚ)

/-- `Math.min(...data)` over a nonempty list (the component only reaches
this with at least two points). -/
def jsMin : List ℚ → ℚ
  | [] => 0
  | x :: xs => xs.foldl min x

/-- `Math.max(...data)` over a nonempty list. -/
def jsMax : List ℚ → ℚ
  | [] => 0
  | x :: xs => xs.foldl max x

/-- The guarded range `max - min || 1` of Sparkline: JS `||` replaces a
zero (falsy) difference by 1. -/
def sparkRange (data : List ℚ) : ℚ :=
  if jsMax data - jsMin data = 0 then 1 else jsMax data - jsMin data

/-- `data[data.length - 1] >= data[0]` for the up/down colour choice. -/
def sparkIsUp (data : List ℚ) : Bool :=
  data.getLastD 0 ≥ data.headI

/-- Embedding of the Sparkline component body: fewer than 2 points yields
the placeholder; otherwise each datum becomes the point
`(padding + (index / (length - 1)) * chartWidth,
  padding + chartHeight - ((value - min) / range) * chartHeight)`,
with `padding = 2`. -/
def sparkline (data : List ℚ) (width height : ℚ) : SparklineView :=
  if data.length < 2 then .placeholder width height
  else
    let mn := jsMin data
    let range := sparkRange data
    let lineColor : String := if sparkIsUp data then "#22c55e" else "#ef4444"
    let padding : ℚ := 2
    let chartWidth := width - padding * 2
    let chartHeight := height - padding * 2
    let points := (List.range data.length).zip data |>.map (fun p =>
      (padding + ((p.1 : ℚ) / ((data.length : ℚ) - 1)) * chartWidth,
       padding + chartHeight - ((p.2 - mn) / range) * chartHeight))
    let dot := (width - padding,
      padding + chartHeight - ((data.getLastD 0 - mn) / range) * chartHeight)
    .chart points lineColor dot

/-! ## Risk engine and decision pipeline (spec §3, §4.3, §4.5) -/

/-- Modelled from the spec: the `RiskState` record of §3 (the Risk
Engine's code is not in the repository snapshot; only the frontend is).
`{realized_R, trade_count, locked, cooldown_until}`, one per trading
day. -/
structure RiskState where
  realized_R : ℚ
  trade_count : ℕ
  locked : Bool
  cooldown_until : Option ℕ
deriving DecidableEq, Repr

/-- Intent of a proposed order action: opening a position or closing
one. -/
inductive Intent where
  | opening
  | closing
deriving DecidableEq, Repr

/-- Modelled from the spec: the configured hard limits of §4.3 (risk
engine code absent from the snapshot). The event-blackout window is a
predicate on the clock. -/
structure RiskConfig where
  max_trades_per_day : ℕ
  max_position_fraction : ℚ
  account_equity : ℚ
  blackout : ℕ → Bool
  max_daily_loss_R : ℚ

/-- Verdict of the risk engine: approval, or the index of the first
failing rule of §4.3 (the reported reason). -/
inductive RiskVerdict where
  | approved
  | blocked (rule : ℕ)
deriving DecidableEq, Repr

/-- Modelled from the spec: the §4.3 rule list, evaluated in priority
order, first failing rule blocks. Rule 1 makes closing actions always
allowed, so the opening-only rules are evaluated on opening intents;
rule 3 is taken in its `block` variant (the spec leaves block-vs-clamp
open); rule 5 sets `locked := true` as a side effect. The engine is the
only writer of `locked`. -/
def riskEvaluate (cfg : RiskConfig) (rs : RiskState) (intent : Intent)
    (size : ℚ) (now : ℕ) : RiskVerdict × RiskState :=
  match intent with
  | .closing => (.approved, rs)
  | .opening =>
    if rs.locked then (.blocked 1, rs)
    else if cfg.max_trades_per_day ≤ rs.trade_count then (.blocked 2, rs)
    else if cfg.max_position_fraction * cfg.account_equity < size then (.blocked 3, rs)
    else if cfg.blackout now then (.blocked 4, rs)
    else if rs.realized_R ≤ -cfg.max_daily_loss_R then
      (.blocked 5, { rs with locked := true })
    else (.approved, rs)

/-- A `place()` call issued to the execution engine. -/
structure PlaceCall where
  intent : Intent
  size : ℚ
deriving DecidableEq, Repr

/-- One decision input: the signal layer's requested action (if any),
its size, and the clock. The regime label rides along because §4.2's
classifier output is part of the decision input the claim quantifies
over; the risk engine outranks it regardless of its value. -/
structure DecisionInput where
  regime : String
  signal : Option Intent
  size : ℚ
  now : ℕ

/-- Modelled from the spec: one pass of the decision pipeline of §2 /
§4.4-§4.5 - every requested action is risk-checked synchronously before
the execution engine may issue `place()`; a blocked verdict issues
nothing. -/
def decideAndExecute (cfg : RiskConfig) (rs : RiskState) (inp : DecisionInput) :
    List PlaceCall × RiskState :=
  match inp.signal with
  | none => ([], rs)
  | some intent =>
    match riskEvaluate cfg rs intent inp.size inp.now with
    | (.approved, rs2) => ([⟨intent, inp.size⟩], rs2)
    | (.blocked _, rs2) => ([], rs2)

/-- Modelled from the spec: the sequential event loop of §5 - decision
inputs are processed to completion one after the other, threading the
RiskState, accumulating every `place()` call issued. -/
def runPipeline (cfg : RiskConfig) (rs : RiskState) :
    List DecisionInput → List PlaceCall × RiskState
  | [] => ([], rs)
  | inp :: rest =>
    let step := decideAndExecute cfg rs inp
    let tail := runPipeline cfg step.2 rest
    (step.1 ++ tail.1, tail.2)

/-! ## Execution engine order store (spec §4.5, §6) -/

/-- Modelled from the spec: the `Order` record of §3 (execution engine
code absent from the snapshot). `client_order_id` is the caller-generated
idempotency key. -/
structure Order where
  client_order_id : String
  intent : Intent
  size : ℚ
deriving DecidableEq, Repr

/-- Modelled from the spec: `place(intent) -> Order` of §4.5 with local
de-duplication - the key is looked up before submission; a duplicate key
returns the existing order and creates nothing. -/
def place (store : List Order) (key : String) (intent : Intent) (size : ℚ) :
    List Order × Order :=
  match store.find? (fun o => o.client_order_id = key) with
  | some o => (store, o)
  | none =>
    let o : Order := ⟨key, intent, size⟩
    (store ++ [o], o)

/-- Number of orders in the store carrying a given idempotency key. -/
def keyCount (store : List Order) (key : String) : ℕ :=
  store.countP (fun o => o.client_order_id = key)

/-! ## Backtest layer (spec §4.1, §4.2, §4.4, §4.6) -/

/-- A bar of the §3 data model (`open` is renamed `openP` - `open` is a
Lean keyword). -/
structure Bar where
  symbol : String
  timestamp : ℕ
  openP : ℚ
  highP : ℚ
  lowP : ℚ
  closeP : ℚ
  volume : ℚ
deriving DecidableEq, Repr

/-- Trading-state-machine states of §4.4. -/
inductive MachineState where
  | PREMARKET
  | OPENING_NO_TRADE
  | TRADING_ALLOWED
  | IN_POSITION
  | COOLDOWN
  | LOCKED
  | SAFE_MODE
  | DONE
deriving DecidableEq, Repr

/-- Modelled from the spec: a TradeRecord (§3), the immutable append-only
log entry written on position close. -/
structure TradeRecord where
  symbol : String
  entry_price : ℚ
  exit_price : ℚ
  size : ℚ
  closed_at : ℕ
deriving DecidableEq, Repr

/-- Modelled from the spec: fixed session parameters of §4.4 of the
simulated clock (session open, end of the opening no-trade window,
forced-flatten pre-close time). -/
structure SessionConfig where
  openTime : ℕ
  noTradeUntil : ℕ
  closeTime : ℕ
  maxLossR : ℚ

/-- Modelled from the spec: the state threaded through the backtest
replay of §4.6 - incremental session indicators (§4.1), the risk state,
the machine state, an optional open position (entry price and size) and
the append-only trade log. -/
structure BTState where
  cumPV : ℚ
  cumVol : ℚ
  or15High : Option ℚ
  or15Low : Option ℚ
  or15Complete : Bool
  risk : RiskState
  machine : MachineState
  position : Option (ℚ × ℚ)
  log : List TradeRecord

/-- The initial backtest state at session start. -/
def btInit : BTState :=
  ⟨0, 0, none, none, false, ⟨0, 0, false, none⟩, .PREMARKET, none, []⟩

/-- Modelled from the spec: §4.1 incremental indicator update - VWAP
cumulators advance, the 15-minute opening-range high/low extend while
the window is open and freeze once `timestamp ≥ open+15min`. -/
def updateIndicators (cfg : SessionConfig) (s : BTState) (b : Bar) : BTState :=
  let s1 := { s with cumPV := s.cumPV + b.closeP * b.volume,
                     cumVol := s.cumVol + b.volume }
  if s1.or15Complete then s1
  else if cfg.openTime + 15 ≤ b.timestamp then { s1 with or15Complete := true }
  else
    { s1 with
      or15High := some (max (s1.or15High.getD b.highP) b.highP),
      or15Low := some (min (s1.or15Low.getD b.lowP) b.lowP) }

/-- Session VWAP of the current state (0 before any volume). -/
def btVwap (s : BTState) : ℚ :=
  if s.cumVol = 0 then 0 else s.cumPV / s.cumVol

/-- Modelled from the spec: §4.2 deterministic rule evaluation - evidence
rules over data visible up to the current bar (close vs VWAP, close vs
opening range); ties resolve to `unknown` with confidence 0. -/
def classify (s : BTState) (b : Bar) : String × ℚ :=
  let upVotes : ℕ :=
    (if btVwap s < b.closeP then 1 else 0) +
    (if s.or15Complete ∧ (∀ h, s.or15High = some h → h < b.closeP) then 1 else 0)
  let downVotes : ℕ :=
    (if b.closeP < btVwap s then 1 else 0) +
    (if s.or15Complete ∧ (∀ l, s.or15Low = some l → b.closeP < l) then 1 else 0)
  if downVotes < upVotes then ("trend_up", (upVotes : ℚ) / 2)
  else if upVotes < downVotes then ("trend_down", (downVotes : ℚ) / 2)
  else ("unknown", 0)

/-- Modelled from the spec: the state-machine/risk/execution part of one
§4.6 replay step, applied after the indicator update - the classifier
reads only the state built from bars already seen, the risk engine is
consulted before any transition, fills are simulated at the current bar,
a TradeRecord is appended on position close, and `DONE` is forced at the
pre-close time with any open position flattened first. -/
def stepCore (cfg : SessionConfig) (s : BTState) (b : Bar) : BTState :=
  if cfg.closeTime ≤ b.timestamp ∧ s.machine ≠ .DONE then
    match s.position with
    | some pe =>
      { s with machine := .DONE, position := none,
               log := s.log ++ [⟨b.symbol, pe.1, b.openP, pe.2, b.timestamp⟩] }
    | none => { s with machine := .DONE }
  else if s.risk.locked ∧ s.machine ≠ .LOCKED ∧ s.machine ≠ .DONE ∧ s.position = none then
    { s with machine := .LOCKED }
  else
    match s.machine with
    | .PREMARKET =>
      if cfg.openTime ≤ b.timestamp then { s with machine := .OPENING_NO_TRADE } else s
    | .OPENING_NO_TRADE =>
      if cfg.noTradeUntil ≤ b.timestamp ∧ ¬s.risk.locked then
        { s with machine := .TRADING_ALLOWED }
      else s
    | .TRADING_ALLOWED =>
      let cls := classify s b
      if cls.1 = "trend_up" ∧ (1 : ℚ) / 2 ≤ cls.2 ∧ ¬s.risk.locked then
        { s with machine := .IN_POSITION, position := some (b.closeP, 1),
                 risk := { s.risk with trade_count := s.risk.trade_count + 1 } }
      else s
    | .IN_POSITION =>
      match s.position with
      | some pe =>
        if b.closeP ≤ pe.1 * (99 / 100) ∨ pe.1 * (101 / 100) ≤ b.closeP then
          let r : ℚ := (b.closeP - pe.1) / (pe.1 * (1 / 100))
          let risk2 := { s.risk with realized_R := s.risk.realized_R + r }
          let risk3 :=
            if risk2.realized_R ≤ -cfg.maxLossR then { risk2 with locked := true }
            else risk2
          { s with machine := .COOLDOWN, position := none, risk := risk3,
                   log := s.log ++ [⟨b.symbol, pe.1, b.closeP, pe.2, b.timestamp⟩] }
        else s
      | none => { s with machine := .SAFE_MODE }
    | .COOLDOWN =>
      if s.risk.locked then { s with machine := .LOCKED }
      else { s with machine := .TRADING_ALLOWED }
    | .LOCKED => s
    | .SAFE_MODE => s
    | .DONE => s

/-- Modelled from the spec: one full simulated-clock step of the §4.6
replay through §4.1-§4.4 - incremental indicator update followed by the
classify / risk-check / transition / simulated-execution pass. -/
def stepBar (cfg : SessionConfig) (s : BTState) (b : Bar) : BTState :=
  stepCore cfg (updateIndicators cfg s b) b

/-- Modelled from the spec: the §4.6 backtest replay - a pure fold of the
step function over the bar sequence. -/
def runBacktest (cfg : SessionConfig) (bars : List Bar) : List TradeRecord :=
  (bars.foldl (stepBar cfg) btInit).log

/-- The backtest state after the first `n` bars of a run (the simulated
clock stands at bar `n`). -/
def btStateAt (cfg : SessionConfig) (bars : List Bar) (n : ℕ) : BTState :=
  (bars.take n).foldl (stepBar cfg) btInit

/-! ## Gregorian dates (the frontend works over JS `Date`; the embedding
uses a year/month/day record with the proleptic Gregorian rules JS uses
in this range) -/

/-- Gregorian leap-year rule. -/
def isLeap (y : ℕ) : Bool :=
  y % 4 = 0 && (y % 100 ≠ 0 || y % 400 = 0)

/-- Length of a month. -/
def daysInMonth (y m : ℕ) : ℕ :=
  if m = 2 then (if isLeap y then 29 else 28)
  else if m = 4 ∨ m = 6 ∨ m = 9 ∨ m = 11 then 30
  else 31

/-- A calendar date, the parse of a `YYYY-MM-DD` string. -/
structure Ymd where
  y : ℕ
  m : ℕ
  d : ℕ
deriving DecidableEq, Repr

/-- A date that denotes an actual calendar day (in the JS epoch era). -/
def ValidYmd (a : Ymd) : Prop :=
  1970 ≤ a.y ∧ 1 ≤ a.m ∧ a.m ≤ 12 ∧ 1 ≤ a.d ∧ a.d ≤ daysInMonth a.y a.m

instance (a : Ymd) : Decidable (ValidYmd a) := by
  unfold ValidYmd; infer_instance

/-- Days in year `y`. -/
def yearLength (y : ℕ) : ℕ :=
  if isLeap y then 366 else 365

/-- Days from 1970-01-01 to the start of the year `k` years later. -/
def daysSinceEpochYears : ℕ → ℕ
  | 0 => 0
  | k + 1 => daysSinceEpochYears k + yearLength (1970 + k)

/-- Days from 1970-01-01 to `y`-01-01 (for `y ≥ 1970`). -/
def daysBeforeYear (y : ℕ) : ℕ :=
  daysSinceEpochYears (y - 1970)

/-- Days from `y`-01-01 to `y`-`m`-01. -/
def daysBeforeMonth (y m : ℕ) : ℕ :=
  ((List.range (m - 1)).map (fun k => daysInMonth y (k + 1))).sum

/-- The JS epoch-day number of a date (days since 1970-01-01). -/
def toEpochDay (a : Ymd) : ℕ :=
  daysBeforeYear a.y + daysBeforeMonth a.y a.m + (a.d - 1)

/-- JS `Date.getDay()`: 0 = Sunday … 6 = Saturday (1970-01-01 was a
Thursday, day 4). -/
def dayOfWeek (a : Ymd) : ℕ :=
  (toEpochDay a + 4) % 7

/-- The following calendar day (what JS `setDate(getDate() + 1)`
normalisation produces on a valid date). -/
def nextDay (a : Ymd) : Ymd :=
  if a.d < daysInMonth a.y a.m then ⟨a.y, a.m, a.d + 1⟩
  else if a.m < 12 then ⟨a.y, a.m + 1, 1⟩
  else ⟨a.y + 1, 1, 1⟩

/-- `n` calendar days later (JS `setDate(getDate() + n)`). -/
def addDays (a : Ymd) : ℕ → Ymd
  | 0 => a
  | n + 1 => nextDay (addDays a n)

/-! ## Market-closed detection (App.tsx: US_MARKET_HOLIDAYS,
checkMarketClosed, getNextTradingDay) -/

/-- Embedding of the `US_MARKET_HOLIDAYS` table: per configured year, the
listed `{date, name}` entries; years without an entry yield the empty
list (the code's `|| []`). -/
def usMarketHolidays (y : ℕ) : List (Ymd × String) :=
  if y = 2025 then
    [(⟨2025, 1, 1⟩, "元旦"), (⟨2025, 1, 20⟩, "马丁·路德·金纪念日"),
     (⟨2025, 2, 17⟩, "总统日"), (⟨2025, 4, 18⟩, "耶稣受难日"),
     (⟨2025, 5, 26⟩, "阵亡将士纪念日"), (⟨2025, 6, 19⟩, "六月节"),
     (⟨2025, 7, 4⟩, "独立日"), (⟨2025, 9, 1⟩, "劳动节"),
     (⟨2025, 11, 27⟩, "感恩节"), (⟨2025, 12, 25⟩, "圣诞节")]
  else if y = 2026 then
    [(⟨2026, 1, 1⟩, "元旦"), (⟨2026, 1, 19⟩, "马丁·路德·金纪念日"),
     (⟨2026, 2, 16⟩, "总统日"), (⟨2026, 4, 3⟩, "耶稣受难日"),
     (⟨2026, 5, 25⟩, "阵亡将士纪念日"), (⟨2026, 6, 19⟩, "六月节"),
     (⟨2026, 7, 3⟩, "独立日(观察日)"), (⟨2026, 9, 7⟩, "劳动节"),
     (⟨2026, 11, 26⟩, "感恩节"), (⟨2026, 12, 25⟩, "圣诞节")]
  else if y = 2027 then
    [(⟨2027, 1, 1⟩, "元旦"), (⟨2027, 1, 18⟩, "马丁·路德·金纪念日"),
     (⟨2027, 2, 15⟩, "总统日"), (⟨2027, 3, 26⟩, "耶稣受难日"),
     (⟨2027, 5, 31⟩, "阵亡将士纪念日"), (⟨2027, 6, 18⟩, "六月节(观察日)"),
     (⟨2027, 7, 5⟩, "独立日(观察日)"), (⟨2027, 9, 6⟩, "劳动节"),
     (⟨2027, 11, 25⟩, "感恩节"), (⟨2027, 12, 24⟩, "圣诞节(观察日)")]
  else []

/-- The holiday dates of a year (the `holidays.map(h => h.date)` sets the
code builds). -/
def holidayDates (y : ℕ) : List Ymd :=
  (usMarketHolidays y).map (fun h => h.1)

/-- Saturday-or-Sunday test (the code's `dayOfWeek === 0 || === 6`). -/
def isWeekendDay (a : Ymd) : Bool :=
  dayOfWeek a = 0 || dayOfWeek a = 6

/-- Embedding of `getNextTradingDay`: scan days `start+1 … start+10` in
order, skip weekends, skip dates in the start-year holiday set and in the
candidate-year holiday set, return the first survivor; `none` models the
empty-string result when the window is exhausted. -/
def getNextTradingDay (start : Ymd) : Option Ymd :=
  ((List.range 10).map (fun i => addDays start (i + 1))).find? (fun c =>
    !isWeekendDay c && !decide (c ∈ holidayDates start.y) &&
      !decide (c ∈ holidayDates c.y))

/-- The `type` discriminant of `MarketClosedInfo`. -/
inductive ClosedType where
  | weekend
  | holiday
  | nonec
deriving DecidableEq, Repr

/-- Embedding of the `MarketClosedInfo` result record (the
`'none'` discriminant string is the `nonec` constructor; the next-open
date is optional as in the code). -/
structure MarketClosedInfo where
  isClosed : Bool
  reason : String
  type : ClosedType
  nextOpenDate : Option Ymd
deriving DecidableEq, Repr

/-- Embedding of `checkMarketClosed` on the parsed date (the string →
date parsing of its input is the parser modelled with `convertTimezone`;
the claim is scoped to parseable dates): Sunday first, then Saturday,
then the holiday lookup of the date's year, else not closed. -/
def checkMarketClosed (date : Ymd) : MarketClosedInfo :=
  if dayOfWeek date = 0 then
    ⟨true, "周日休市", .weekend, getNextTradingDay date⟩
  else if dayOfWeek date = 6 then
    ⟨true, "周六休市", .weekend, getNextTradingDay date⟩
  else
    match (usMarketHolidays date.y).find? (fun h => h.1 = date) with
    | some h => ⟨true, h.2 ++ " - 休市", .holiday, getNextTradingDay date⟩
    | none => ⟨false, "", .nonec, none⟩

/-! ## JS string operations (modelled on `List Char`) used by
convertTimezone -/

/-- Split a character list at the first occurrence of `sep`: the part
before it and the part after it, or `none` when `sep` does not occur. -/
def splitFirst (sep : List Char) : List Char → Option (List Char × List Char)
  | [] => if sep.isEmpty then some ([], []) else none
  | c :: rest =>
    if sep.isPrefixOf (c :: rest) then some ([], (c :: rest).drop sep.length)
    else
      match splitFirst sep rest with
      | some p => some (c :: p.1, p.2)
      | none => none

/-- JS `s.includes(sep)`. -/
def containsSub (l sep : List Char) : Bool :=
  (splitFirst sep l).isSome

/-- JS `s.replace(sep, aSym)` with the empty replacement: removes the
first occurrence only. -/
def replaceFirst (l sep : List Char) : List Char :=
  match splitFirst sep l with
  | some p => p.1 ++ p.2
  | none => l

/-- `s.split(' ')[0]`. -/
def part0 (l : List Char) : List Char :=
  match splitFirst [' '] l with
  | none => l
  | some p => p.1

/-- `s.split(' ')[1]` (`none` when there is no second element). -/
def part1 (l : List Char) : Option (List Char) :=
  match splitFirst [' '] l with
  | none => none
  | some p =>
    match splitFirst [' '] p.2 with
    | none => some p.2
    | some q => some q.1

/-- The regex `^\d{2}:\d{2}:\d{2}$` of the time-only input format (shape
only - the code's regex accepts out-of-range components such as
`99:99:99`, which then fail the Date parse). -/
def isTimeShape : List Char → Bool
  | [a, b, c, d, e, f, g, h] =>
    a.isDigit && b.isDigit && c = ':' && d.isDigit && e.isDigit && f = ':' &&
      g.isDigit && h.isDigit
  | _ => false

/-- Numeric value of a decimal digit character. -/
def digitVal (c : Char) : ℕ :=
  c.toNat - 48

/-- Parse of the `YYYY-MM-DD` part of the ISO string handed to
`new Date(...)`: shape plus calendar validity (JS rejects out-of-range
month/day components of an ISO date as an Invalid Date). -/
def parseDate (l : List Char) : Option Ymd :=
  match l with
  | [y1, y2, y3, y4, s1, m1, m2, s2, d1, d2] =>
    if y1.isDigit && y2.isDigit && y3.isDigit && y4.isDigit && s1 = '-' &&
        m1.isDigit && m2.isDigit && s2 = '-' && d1.isDigit && d2.isDigit then
      let y := 1000 * digitVal y1 + 100 * digitVal y2 + 10 * digitVal y3 + digitVal y4
      let m := 10 * digitVal m1 + digitVal m2
      let d := 10 * digitVal d1 + digitVal d2
      if 1 ≤ m ∧ m ≤ 12 ∧ 1 ≤ d ∧ d ≤ daysInMonth y m then some ⟨y, m, d⟩ else none
    else none
  | _ => none

/-- Parse of the `HH:MM:SS` part of the ISO string: shape plus range
validity (the JS Date constructor rejects out-of-range time components
as an Invalid Date). -/
def parseTime (l : List Char) : Option (ℕ × ℕ × ℕ) :=
  match l with
  | [h1, h2, s1, m1, m2, s2, c1, c2] =>
    if h1.isDigit && h2.isDigit && s1 = ':' && m1.isDigit && m2.isDigit &&
        s2 = ':' && c1.isDigit && c2.isDigit then
      let h := 10 * digitVal h1 + digitVal h2
      let m := 10 * digitVal m1 + digitVal m2
      let s := 10 * digitVal c1 + digitVal c2
      if h ≤ 23 ∧ m ≤ 59 ∧ s ≤ 59 then some (h, m, s) else none
    else none
  | _ => none

/-! ## convertTimezone (App.tsx) -/

/-- The target timezone selector. -/
inductive TimezoneOption where
  | ET
  | LOCAL
  | UTC
deriving DecidableEq, Repr

/-- The ambient browser facts `convertTimezone` reads: the current date
(for time-only inputs) and the local UTC offset in minutes east (the
code's `-getTimezoneOffset()`). -/
structure FrontendEnv where
  todayStr : List Char
  tzOffsetMin : ℤ

/-- The ` ET` marker. -/
def strET : List Char := [' ', 'E', 'T']

/-- Two-digit zero-padded decimal (`padStart(2, zero)` of a value below
100). -/
def pad2 (n : ℕ) : List Char :=
  [Nat.digitChar (n / 10 % 10), Nat.digitChar (n % 10)]

/-- Unpadded decimal of a small number (the `offsetHours` in the
`GMT±h` suffix). -/
def natChars (n : ℕ) : List Char :=
  if n < 10 then [Nat.digitChar n] else [Nat.digitChar (n / 10 % 10), Nat.digitChar (n % 10)]

/-- The date-string/time-string pair `convertTimezone` extracts from its
input before `new Date(...)`: the ` ET` format takes the split parts
(JS yields the string `undefined` for a missing second part), the
time-only shape pairs the current date with the input, anything else is
unparseable. -/
def extractDateTime (env : FrontendEnv) (s : List Char) :
    Option (List Char × List Char) :=
  if containsSub s strET then
    let cleaned := replaceFirst s strET
    some (part0 cleaned,
      (part1 cleaned).getD ['u', 'n', 'd', 'e', 'f', 'i', 'n', 'e', 'd'])
  else if isTimeShape s then some (env.todayStr, s)
  else none

/-- Embedding of `convertTimezone`: identity for target `ET`;
otherwise extract date/time, build the instant with the fixed `-05:00`
offset, and on any parse failure return the input unchanged. For `UTC`
the printed hour is `(h + 5) % 24` over the original date string; for
`LOCAL` the wall clock is shifted by `5h + tzOffset` and the `GMT±h`
suffix appended. -/
def convertTimezone (env : FrontendEnv) (s : List Char) (tz : TimezoneOption) :
    List Char :=
  if tz = .ET then s
  else
    match extractDateTime env s with
    | none => s
    | some (dateStr, timeStr) =>
      match parseDate dateStr, parseTime timeStr with
      | some _, some t =>
        match tz with
        | .UTC =>
          dateStr ++ [' '] ++ pad2 ((t.1 + 5) % 24) ++ [':'] ++ pad2 t.2.1 ++
            [':'] ++ pad2 t.2.2 ++ [' ', 'U', 'T', 'C']
        | .LOCAL =>
          let total : ℤ := ((t.1 * 60 + t.2.1 : ℕ) : ℤ) + 300 + env.tzOffsetMin
          let tm : ℤ := total % 1440
          let hh : ℕ := (tm / 60).toNat
          let mm : ℕ := (tm % 60).toNat
          let sign : Char := if 0 ≤ env.tzOffsetMin then '+' else '-'
          dateStr ++ [' '] ++ pad2 hh ++ [':'] ++ pad2 mm ++ [':'] ++
            pad2 t.2.2 ++ [' ', 'G', 'M', 'T', sign] ++
            natChars (env.tzOffsetMin.natAbs / 60)
        | .ET => s
      | _, _ => s

/-! ## Watchlist add with validation (frontend API module) -/

/-- The outcome of an awaited `fetch` as the embedding sees it: the
response's `ok` flag and (already-decoded) body. -/
structure HttpResp (α : Type) where
  ok : Bool
  body : α

/-- The `ValidateSymbolResponse` interface. -/
structure ValidateSymbolResponse where
  valid : Bool
  symbol : String
  name : Option String
  error : Option String
deriving DecidableEq, Repr

/-- The `WatchlistResponse` interface. -/
structure WatchlistResponse where
  symbols : List String
deriving DecidableEq, Repr

/-- JS `a || b` on an optional string: `b` when `a` is absent or empty
(falsy). -/
def jsOrElse (a : Option String) (b : String) : String :=
  match a with
  | some s => if s = "" then b else s
  | none => b

/-- Embedding of `validateSymbol`: a non-ok response yields
`{valid: false, symbol, error}` - it does not throw. -/
def validateSymbol (symbol : String) (resp : HttpResp ValidateSymbolResponse) :
    ValidateSymbolResponse :=
  if resp.ok then resp.body
  else ⟨false, symbol, none, some "Failed to validate symbol"⟩

/-- Embedding of the throwing fetch-helper pattern shared by
`fetchDashboard`, `fetchWatchlist`, `addToWatchlist`,
`removeFromWatchlist`, `fetchMarketStatus`, `fetchStockStatus`,
`getDataSource`, `setDataSource` and `connectTws`: a non-ok response
throws the helper's error message. -/
def throwingFetch {α : Type} (resp : HttpResp α) (errMsg : String) :
    Except String α :=
  if resp.ok then .ok resp.body else .error errMsg

/-- The result shape of `addToWatchlistWithValidation`. -/
structure AddResult where
  success : Bool
  data : Option WatchlistResponse
  error : Option String
deriving DecidableEq, Repr

/-- Embedding of `addToWatchlistWithValidation`: validate first; on an
invalid symbol return failure with the validation error (or the default
message) and issue no POST; otherwise issue the watchlist POST with the
validated symbol and map its outcome. The second component collects the
symbols POSTed to `/api/watchlist`. -/
def addToWatchlistWithValidation (symbol : String)
    (vResp : HttpResp ValidateSymbolResponse) (pResp : HttpResp WatchlistResponse) :
    AddResult × List String :=
  let validation := validateSymbol symbol vResp
  if !validation.valid then
    (⟨false, none, some (jsOrElse validation.error ("无效的股票代码: " ++ symbol))⟩, [])
  else if pResp.ok then
    (⟨true, some pResp.body, none⟩, [validation.symbol])
  else
    (⟨false, none, some "Failed to add to watchlist"⟩, [validation.symbol])

/-! ## Concrete fixtures (inputs used to instantiate the theorems) -/

/-- A concrete StockStatus with a completed 15-minute opening range. -/
def sampleStock : StockStatus :=
  ⟨"AAPL", "Apple Inc.", some "NASDAQ", 190, 189, 1 / 2, true,
   some 191, some 188, some 192, some 187, true, "trend_up", 3 / 4,
   ["above VWAP"], "10:30:00", some [188, 189, 190], some 185,
   some 188, some 192, some 187, some 189⟩

/-- A concrete risk configuration (no blackout window). -/
def sampleRiskCfg : RiskConfig :=
  ⟨2, 1 / 25, 100000, fun _ => false, 2⟩

/-- A locked risk state. -/
def lockedRisk : RiskState :=
  ⟨-2, 1, true, none⟩

/-- Decision inputs containing both an opening and a closing request. -/
def sampleInputs : List DecisionInput :=
  [⟨"trend_up", some Intent.opening, 100, 600⟩,
   ⟨"trend_up", some Intent.closing, 100, 660⟩,
   ⟨"unknown", none, 0, 720⟩]

/-- A concrete session configuration for the backtest fixtures. -/
def sampleSession : SessionConfig :=
  ⟨570, 585, 955, 2⟩

/-- A failed validation response (HTTP not ok; body irrelevant). -/
def failedValidateResp : HttpResp ValidateSymbolResponse :=
  ⟨false, ⟨true, "FOO", none, none⟩⟩

/-- A successful watchlist POST response. -/
def okPostResp : HttpResp WatchlistResponse :=
  ⟨true, ⟨["FOO"]⟩⟩

/-- A concrete browser environment (current date and a UTC+2 local
offset). -/
def sampleFrontendEnv : FrontendEnv :=
  ⟨"2026-10-11".toList, 120⟩

/-- A concrete timestamp string in the dashboard's ` ET` format. -/
def etSample : List Char :=
  "2026-02-01 10:30:00 ET".toList

/-- A short concrete bar sequence. -/
def sampleBars : List Bar :=
  [⟨"QQQM", 560, 100, 101, 99, 100, 1000⟩,
   ⟨"QQQM", 575, 100, 102, 100, 101, 1200⟩,
   ⟨"QQQM", 590, 101, 103, 101, 102, 1100⟩,
   ⟨"QQQM", 605, 102, 104, 102, 104, 1300⟩]

end TTrade

namespace TTrade

/-! ## Claim C3: the presentation layer only reads core state -/

/-- Claim C3: every request the frontend API module issues against an
endpoint that carries core-owned state (StateMachine session state,
RegimeClassification, risk/trading-permission state) is a read-only GET
query; the frontend's writes all target watchlist/data-source
configuration endpoints, never the core. -/
theorem core_requests_are_read_only :
    ∀ r ∈ apiRequests, exposesCoreState r.endpoint = true →
      isReadOnlyQuery r = true := by
  decide

/-- Instantiation of `core_requests_are_read_only` at the dashboard
request. -/
theorem core_requests_are_read_only_witness :
    (ApiRequest.mk .dashboard .GET) ∈ apiRequests ∧
      isReadOnlyQuery (ApiRequest.mk .dashboard .GET) = true := by
  refine ⟨by decide, core_requests_are_read_only ⟨.dashboard, .GET⟩ (by decide) (by decide)⟩

/-! ## Claim C4: regime display mapping -/

/-- Claim C4: over the regime label set {trend_up, trend_down, range,
event, unknown} the dashboard display helpers are injective - distinct
labels, distinct icons (component/className pairs) and distinct colour
classes - with `unknown` in particular rendered distinct from `range`;
any string outside the set is echoed verbatim by `getRegimeLabel` and
falls back to the unknown styling in `getRegimeIcon` and
`getRegimeColor`. -/
theorem regime_display_mapping :
    (∀ a ∈ knownRegimes, ∀ b ∈ knownRegimes, a ≠ b →
      getRegimeLabel a ≠ getRegimeLabel b ∧ getRegimeIcon a ≠ getRegimeIcon b ∧
        getRegimeColor a ≠ getRegimeColor b)
    ∧ getRegimeLabel "unknown" ≠ getRegimeLabel "range"
    ∧ getRegimeIcon "unknown" ≠ getRegimeIcon "range"
    ∧ ∀ s : String, s ∉ knownRegimes →
        getRegimeLabel s = s ∧ getRegimeIcon s = getRegimeIcon "unknown" ∧
          getRegimeColor s = getRegimeColor "unknown" := by
  refine ⟨by decide, by decide, by decide, ?_⟩
  intro s hs
  simp only [knownRegimes, List.mem_cons, List.not_mem_nil, or_false, not_or] at hs
  obtain ⟨h1, h2, h3, h4, h5⟩ := hs
  refine ⟨?_, ?_, ?_⟩ <;>
    simp [getRegimeLabel, getRegimeIcon, getRegimeColor, h1, h2, h3, h4, h5]

/-- Instantiation of `regime_display_mapping` at an out-of-set regime
string. -/
theorem regime_display_mapping_witness :
    getRegimeLabel "no_signal" = "no_signal" ∧
      getRegimeIcon "no_signal" = getRegimeIcon "unknown" := by
  have h := regime_display_mapping.2.2.2 "no_signal" (by decide)
  exact ⟨h.1, h.2.1⟩

/-! ## Claim C6: the OR15 panel renders iff the range is complete -/

/-- Claim C6: a rendered StockCard contains the Opening-Range (OR15)
panel exactly when `or15_complete` is true, and any OR panel present
shows exactly the card's `or15_high`/`or15_low` values - the values of an
incomplete opening range are never displayed as a completed range. -/
theorem or15_panel_iff_complete (s : StockStatus) :
    ((∃ hi lo, CardSection.orPanel hi lo ∈ renderStockCard s) ↔
      s.or15_complete = true)
    ∧ ∀ hi lo, CardSection.orPanel hi lo ∈ renderStockCard s →
        hi = s.or15_high ∧ lo = s.or15_low := by
  cases h : s.or15_complete <;>
    simp [renderStockCard, h]

/-- Instantiation of `or15_panel_iff_complete` at the sample stock, whose
opening range is complete. -/
theorem or15_panel_iff_complete_witness :
    sampleStock.or15_complete = true ∧
      ∃ hi lo, CardSection.orPanel hi lo ∈ renderStockCard sampleStock := by
  exact ⟨rfl, (or15_panel_iff_complete sampleStock).1.mpr rfl⟩

/-! ## Claim C5: Sparkline is total on sparse and constant data -/

/-- Claim C5: the Sparkline render is total - fewer than 2 data points
yields the placeholder instead of computing; with at least 2 points the
chart is produced with one point per datum and both divisors are nonzero
(the guarded range `max - min || 1` is never 0 and the index divisor
`length - 1` is nonzero), so no division is unguarded and no NaN
coordinate arises; and a nullable indicator field renders as the dash
placeholder when absent. -/
theorem sparkline_total_on_sparse_data (data : List ℚ) (w h : ℚ) :
    (data.length < 2 → sparkline data w h = .placeholder w h)
    ∧ (2 ≤ data.length →
        sparkRange data ≠ 0 ∧ ((data.length : ℚ) - 1) ≠ 0 ∧
          ∃ pts dot,
            sparkline data w h =
              .chart pts (if sparkIsUp data then "#22c55e" else "#ef4444") dot ∧
            pts.length = data.length)
    ∧ renderOptPrice none = PriceCell.dash := by
  refine ⟨fun hlt => by simp [sparkline, hlt], fun hge => ?_, rfl⟩
  have hnotlt : ¬data.length < 2 := not_lt.mpr hge
  have hrange : sparkRange data ≠ 0 := by
    unfold sparkRange
    split
    · exact one_ne_zero
    · next hne => exact hne
  have hden : ((data.length : ℚ) - 1) ≠ 0 := by
    have h2 : (2 : ℚ) ≤ (data.length : ℚ) := by exact_mod_cast hge
    intro hzero
    nlinarith
  refine ⟨hrange, hden, ?_⟩
  unfold sparkline
  rw [if_neg hnotlt]
  refine ⟨_, _, rfl, ?_⟩
  simp

/-- Instantiation of `sparkline_total_on_sparse_data`: a single point
yields the placeholder and constant three-point data has a nonzero
guarded range. -/
theorem sparkline_total_on_sparse_data_witness :
    sparkline [5] 120 40 = .placeholder 120 40 ∧ sparkRange [5, 5, 5] ≠ 0 := by
  exact ⟨(sparkline_total_on_sparse_data [5] 120 40).1 (by decide),
    ((sparkline_total_on_sparse_data [5, 5, 5] 120 40).2.1 (by decide)).1⟩

/-! ## Claim C1: a locked RiskState blocks every opening action -/

/-- A locked risk state makes the risk engine block an opening action as
rule 1 and leave the state unchanged. -/
lemma riskEvaluate_locked_opening (cfg : RiskConfig) (rs : RiskState)
    (sz : ℚ) (now : ℕ) (h : rs.locked = true) :
    riskEvaluate cfg rs .opening sz now = (.blocked 1, rs) := by
  simp [riskEvaluate, h]

/-- The risk engine approves every closing action unconditionally. -/
lemma riskEvaluate_closing (cfg : RiskConfig) (rs : RiskState)
    (sz : ℚ) (now : ℕ) :
    riskEvaluate cfg rs .closing sz now = (.approved, rs) := rfl

/-- One decision step never clears the lock (only the risk engine writes
`locked`, and no §4.3 rule unsets it). -/
lemma decideAndExecute_keeps_locked (cfg : RiskConfig) (rs : RiskState)
    (inp : DecisionInput) (h : rs.locked = true) :
    (decideAndExecute cfg rs inp).2.locked = true := by
  rcases hsig : inp.signal with _ | intent
  · simpa [decideAndExecute, hsig] using h
  · cases intent
    · simp [decideAndExecute, hsig, riskEvaluate_locked_opening cfg rs _ _ h, h]
    · simpa [decideAndExecute, hsig, riskEvaluate_closing] using h

/-- Claim C1: starting from a RiskState with `locked = true`, the
decision pipeline never issues a `place()` call with opening intent over
any sequence of decision inputs - every issued call is a closing action,
regardless of the regime label or signal carried by the inputs - while a
closing request is still executed. -/
theorem locked_blocks_all_openings (cfg : RiskConfig) (rs : RiskState)
    (inps : List DecisionInput) (h : rs.locked = true) :
    (∀ c ∈ (runPipeline cfg rs inps).1, c.intent = Intent.closing)
    ∧ (∀ inp : DecisionInput, inp.signal = some Intent.closing →
        (decideAndExecute cfg rs inp).1 = [⟨Intent.closing, inp.size⟩]) := by
  constructor
  · induction inps generalizing rs with
    | nil => intro c hc; simp [runPipeline] at hc
    | cons inp rest ih =>
      intro c hc
      simp only [runPipeline, List.mem_append] at hc
      rcases hc with hc | hc
      · rcases hsig : inp.signal with _ | intent
        · simp [decideAndExecute, hsig] at hc
        · cases intent
          · simp [decideAndExecute, hsig,
              riskEvaluate_locked_opening cfg rs _ _ h] at hc
          · simp [decideAndExecute, hsig, riskEvaluate_closing] at hc
            simp [hc]
      · exact ih (decideAndExecute cfg rs inp).2
          (decideAndExecute_keeps_locked cfg rs inp h) c hc
  · intro inp hsig
    simp [decideAndExecute, hsig, riskEvaluate_closing]

/-- Instantiation of `locked_blocks_all_openings` at a locked state and a
concrete input sequence containing an opening and a closing request. -/
theorem locked_blocks_all_openings_witness :
    lockedRisk.locked = true ∧
      ∀ c ∈ (runPipeline sampleRiskCfg lockedRisk sampleInputs).1,
        c.intent = Intent.closing := by
  exact ⟨rfl,
    (locked_blocks_all_openings sampleRiskCfg lockedRisk sampleInputs rfl).1⟩

/-! ## Claim C2: idempotency keys never create a second order -/

/-- Claim C2: re-submitting the same idempotency key is absorbed - the
second `place()` with the key leaves the order store unchanged, and when
the key was fresh the store holds exactly one order with that key after
the two submissions. -/
theorem duplicate_key_single_order (store : List Order) (key : String)
    (intent : Intent) (size : ℚ) :
    (place (place store key intent size).1 key intent size).1 =
      (place store key intent size).1
    ∧ (keyCount store key = 0 →
        keyCount (place (place store key intent size).1 key intent size).1 key = 1) := by
  rcases hf : store.find? (fun o => o.client_order_id = key) with _ | o
  · have hnew : (place store key intent size).1 =
        store ++ [⟨key, intent, size⟩] := by
      simp [place, hf]
    have hfind2 : (store ++ [(⟨key, intent, size⟩ : Order)]).find?
        (fun o => o.client_order_id = key) = some ⟨key, intent, size⟩ := by
      rw [List.find?_append, hf]
      simp
    constructor
    · rw [hnew]
      simp [place, hfind2]
    · intro hcount
      rw [hnew]
      simp only [place, hfind2]
      unfold keyCount at hcount ⊢
      rw [List.countP_append, hcount]
      simp
  · have h1 : (place store key intent size).1 = store := by
      simp [place, hf]
    constructor
    · rw [h1, h1]
    · intro hcount
      exfalso
      have hp := List.find?_some hf
      have hmem := List.mem_of_find?_eq_some hf
      exact absurd hp (List.countP_eq_zero.mp hcount o hmem)

/-- Instantiation of `duplicate_key_single_order`: submitting the key
`ORD-1` twice into an empty store leaves exactly one order. -/
theorem duplicate_key_single_order_witness :
    keyCount ([] : List Order) "ORD-1" = 0 ∧
      keyCount (place (place [] "ORD-1" .opening 100).1 "ORD-1" .opening 100).1
        "ORD-1" = 1 := by
  exact ⟨rfl, (duplicate_key_single_order [] "ORD-1" .opening 100).2 rfl⟩

/-! ## Claim C7: backtest replay determinism and point-in-time logs -/

/-- The indicator update never touches the trade log. -/
lemma updateIndicators_log (cfg : SessionConfig) (s : BTState) (b : Bar) :
    (updateIndicators cfg s b).log = s.log := by
  unfold updateIndicators
  dsimp only
  split_ifs <;> rfl

/-- Every branch of the transition step either leaves the log alone or
appends to it: the log is append-only. -/
lemma stepCore_log_extend (cfg : SessionConfig) (s : BTState) (b : Bar) :
    ∃ t, (stepCore cfg s b).log = s.log ++ t := by
  unfold stepCore
  dsimp only
  repeat' split
  all_goals first
    | exact ⟨[], (List.append_nil _).symm⟩
    | exact ⟨_, rfl⟩

/-- A full replay step is append-only on the log. -/
lemma stepBar_log_extend (cfg : SessionConfig) (s : BTState) (b : Bar) :
    ∃ t, (stepBar cfg s b).log = s.log ++ t := by
  obtain ⟨t, ht⟩ := stepCore_log_extend cfg (updateIndicators cfg s b) b
  exact ⟨t, by rw [stepBar, ht, updateIndicators_log]⟩

/-- Folding the replay over further bars only ever appends to the log. -/
lemma foldl_log_extend (cfg : SessionConfig) (l : List Bar) (s : BTState) :
    ∃ t, (l.foldl (stepBar cfg) s).log = s.log ++ t := by
  induction l generalizing s with
  | nil => exact ⟨[], (List.append_nil _).symm⟩
  | cons b rest ih =>
    obtain ⟨t1, ht1⟩ := stepBar_log_extend cfg s b
    obtain ⟨t2, ht2⟩ := ih (stepBar cfg s b)
    exact ⟨t1 ++ t2, by rw [List.foldl_cons, ht2, ht1, List.append_assoc]⟩

/-- Claim C7: the backtest layer is a deterministic function of its input
bar sequence - replaying equal bar sequences yields identical TradeRecord
logs; the log standing at simulated time `n` is exactly the full replay
of the first `n` bars (decisions read only bars with index below the
simulated clock, no lookahead); and later bars only append to that log,
never rewrite it. -/
theorem backtest_replay_deterministic (cfg : SessionConfig) :
    (∀ bars1 bars2 : List Bar, bars1 = bars2 →
      runBacktest cfg bars1 = runBacktest cfg bars2)
    ∧ (∀ (bars : List Bar) (n : ℕ),
        (btStateAt cfg bars n).log = runBacktest cfg (bars.take n))
    ∧ (∀ (bars : List Bar) (n : ℕ), ∃ suffix,
        runBacktest cfg bars = (btStateAt cfg bars n).log ++ suffix) := by
  refine ⟨fun b1 b2 h => by rw [h], fun bars n => rfl, fun bars n => ?_⟩
  have h1 : runBacktest cfg bars =
      ((bars.drop n).foldl (stepBar cfg) (btStateAt cfg bars n)).log := by
    unfold runBacktest btStateAt
    rw [← List.foldl_append, List.take_append_drop]
  rw [h1]
  exact foldl_log_extend cfg (bars.drop n) (btStateAt cfg bars n)

/-- Instantiation of `backtest_replay_deterministic` at the sample
session and bar sequence. -/
theorem backtest_replay_deterministic_witness :
    runBacktest sampleSession sampleBars = runBacktest sampleSession sampleBars
    ∧ ∃ suffix, runBacktest sampleSession sampleBars =
        (btStateAt sampleSession sampleBars 2).log ++ suffix := by
  exact ⟨(backtest_replay_deterministic sampleSession).1 sampleBars sampleBars rfl,
    (backtest_replay_deterministic sampleSession).2.2 sampleBars 2⟩

/-! ## Claim C8: validation gates the watchlist POST -/

/-- Claim C8: `addToWatchlistWithValidation` issues the watchlist POST
only after `validateSymbol` reports `valid`: a failed validation yields
`{success: false}` with an error message and no POST, a successful one
issues exactly the POST of the validated symbol; `validateSymbol` maps a
non-ok HTTP response to `{valid: false, error}` instead of throwing,
while the other fetch helpers throw their error message on a non-ok
response. -/
theorem validation_gates_watchlist_post (symbol : String)
    (vResp : HttpResp ValidateSymbolResponse) (pResp : HttpResp WatchlistResponse) :
    ((validateSymbol symbol vResp).valid = false →
      (addToWatchlistWithValidation symbol vResp pResp).1.success = false ∧
        (addToWatchlistWithValidation symbol vResp pResp).1.error.isSome = true ∧
        (addToWatchlistWithValidation symbol vResp pResp).2 = [])
    ∧ ((validateSymbol symbol vResp).valid = true →
        (addToWatchlistWithValidation symbol vResp pResp).2 =
          [(validateSymbol symbol vResp).symbol])
    ∧ (vResp.ok = false →
        validateSymbol symbol vResp =
          ⟨false, symbol, none, some "Failed to validate symbol"⟩)
    ∧ (∀ (resp : HttpResp WatchlistResponse) (msg : String), resp.ok = false →
        throwingFetch resp msg = .error msg) := by
  refine ⟨?_, ?_, ?_, ?_⟩
  · intro h
    simp [addToWatchlistWithValidation, h]
  · intro h
    by_cases hp : pResp.ok <;>
      simp [addToWatchlistWithValidation, h, hp]
  · intro h
    simp [validateSymbol, h]
  · intro resp msg h
    simp [throwingFetch, h]

/-- Instantiation of `validation_gates_watchlist_post` at a failed
validation response: no POST is sent and the result reports failure. -/
theorem validation_gates_watchlist_post_witness :
    (validateSymbol "FOO" failedValidateResp).valid = false ∧
      (addToWatchlistWithValidation "FOO" failedValidateResp okPostResp).1.success
        = false ∧
      (addToWatchlistWithValidation "FOO" failedValidateResp okPostResp).2 = [] := by
  have h := (validation_gates_watchlist_post "FOO" failedValidateResp okPostResp).1 rfl
  exact ⟨rfl, h.1, h.2.2⟩

/-! ## Claim C9: weekend/holiday detection and next-trading-day search -/

/-- Every month has at least one day. -/
lemma daysInMonth_pos (y m : ℕ) : 1 ≤ daysInMonth y m := by
  unfold daysInMonth
  split_ifs <;> omega

/-- Every date listed in a year's holiday table carries that year. -/
lemma holidayDates_year (y : ℕ) : ∀ c ∈ holidayDates y, c.y = y := by
  unfold holidayDates usMarketHolidays
  split_ifs with h1 h2 h3
  · subst h1; decide
  · subst h2; decide
  · subst h3; decide
  · simp

/-- No date listed in the holiday tables falls on a weekend (checked over
all thirty configured dates). -/
lemma holidayDates_weekday (y : ℕ) : ∀ c ∈ holidayDates y, isWeekendDay c = false := by
  unfold holidayDates usMarketHolidays
  split_ifs with h1 h2 h3
  · subst h1; decide
  · subst h2; decide
  · subst h3; decide
  · simp

/-- The successor of a valid date is valid. -/
lemma valid_nextDay (a : Ymd) (h : ValidYmd a) : ValidYmd (nextDay a) := by
  unfold ValidYmd at h ⊢
  obtain ⟨hy, hm1, hm2, hd1, hd2⟩ := h
  have hp1 := daysInMonth_pos a.y (a.m + 1)
  have hp2 := daysInMonth_pos (a.y + 1) 1
  unfold nextDay
  split_ifs with h1 h2 <;> dsimp only <;>
    exact ⟨by omega, by omega, by omega, by omega, by omega⟩

/-- Prepending one more month to the month-prefix sum. -/
lemma daysBeforeMonth_succ (y m : ℕ) (hm : 1 ≤ m) :
    daysBeforeMonth y (m + 1) = daysBeforeMonth y m + daysInMonth y m := by
  unfold daysBeforeMonth
  rw [show m + 1 - 1 = (m - 1) + 1 from by omega, List.range_succ,
    List.map_append, List.sum_append]
  simp [show m - 1 + 1 = m from by omega]

/-- The eleven-month prefix sum plus December gives the year length. -/
lemma daysBeforeMonth_twelve (y : ℕ) : daysBeforeMonth y 12 + 31 = yearLength y := by
  have hr : List.range 11 = [0, 1, 2, 3, 4, 5, 6, 7, 8, 9, 10] := rfl
  cases h : isLeap y <;>
    simp [daysBeforeMonth, yearLength, daysInMonth, hr, h]

/-- The year-prefix day count advances by the year length. -/
lemma daysBeforeYear_succ (y : ℕ) (hy : 1970 ≤ y) :
    daysBeforeYear (y + 1) = daysBeforeYear y + yearLength y := by
  unfold daysBeforeYear
  rw [show y + 1 - 1970 = (y - 1970) + 1 from by omega]
  show daysSinceEpochYears (y - 1970) + yearLength (1970 + (y - 1970)) = _
  rw [show 1970 + (y - 1970) = y from by omega]

/-- Epoch-day number of the successor of a valid date. -/
lemma toEpochDay_nextDay (a : Ymd) (h : ValidYmd a) :
    toEpochDay (nextDay a) = toEpochDay a + 1 := by
  unfold ValidYmd at h
  obtain ⟨hy, hm1, hm2, hd1, hd2⟩ := h
  unfold nextDay
  split_ifs with h1 h2
  · unfold toEpochDay
    dsimp
    omega
  · have hd : a.d = daysInMonth a.y a.m := by omega
    unfold toEpochDay
    dsimp
    rw [daysBeforeMonth_succ a.y a.m hm1]
    omega
  · have hm : a.m = 12 := by omega
    have hd31 : daysInMonth a.y 12 = 31 := by unfold daysInMonth; norm_num
    rw [hm] at h1 hd2
    have hd : a.d = 31 := by omega
    have h12 := daysBeforeMonth_twelve a.y
    unfold toEpochDay
    dsimp
    rw [daysBeforeYear_succ a.y hy]
    have hdbm1 : daysBeforeMonth (a.y + 1) 1 = 0 := rfl
    rw [hdbm1, hm, hd]
    omega

/-- Epoch-day number and validity of a day offset from a valid date. -/
lemma toEpochDay_addDays (a : Ymd) (h : ValidYmd a) (n : ℕ) :
    ValidYmd (addDays a n) ∧ toEpochDay (addDays a n) = toEpochDay a + n := by
  induction n with
  | zero =>
    constructor
    · simpa [addDays] using h
    · simp [addDays]
  | succ k ih =>
    refine ⟨valid_nextDay _ ih.1, ?_⟩
    simp only [addDays]
    rw [toEpochDay_nextDay _ ih.1, ih.2]
    omega

/-- Claim C9: `checkMarketClosed` reports closed with type `weekend`
exactly on Saturdays and Sundays, and closed with type `holiday` exactly
on dates listed in the `US_MARKET_HOLIDAYS` table for the date's year
(the configured tables contain no weekend dates, so the two cases do not
overlap); `getNextTradingDay` returns a strictly later date at most 10
days ahead that is neither a weekend nor a listed holiday, and returns
nothing exactly when every day of that window is a weekend or listed
holiday. -/
theorem market_closed_and_next_trading_day :
    (∀ d : Ymd,
      ((checkMarketClosed d).isClosed = true ∧
          (checkMarketClosed d).type = ClosedType.weekend)
        ↔ (dayOfWeek d = 0 ∨ dayOfWeek d = 6))
    ∧ (∀ d : Ymd,
      ((checkMarketClosed d).isClosed = true ∧
          (checkMarketClosed d).type = ClosedType.holiday)
        ↔ d ∈ holidayDates d.y)
    ∧ (∀ (d c : Ymd), ValidYmd d → getNextTradingDay d = some c →
        toEpochDay d < toEpochDay c ∧ toEpochDay c ≤ toEpochDay d + 10 ∧
          isWeekendDay c = false ∧ c ∉ holidayDates c.y)
    ∧ (∀ d : Ymd, getNextTradingDay d = none →
        ∀ i : ℕ, 1 ≤ i → i ≤ 10 →
          isWeekendDay (addDays d i) = true ∨
            addDays d i ∈ holidayDates (addDays d i).y) := by
  refine ⟨?_, ?_, ?_, ?_⟩
  · intro d
    by_cases h0 : dayOfWeek d = 0
    · simp [checkMarketClosed, h0]
    · by_cases h6 : dayOfWeek d = 6
      · simp [checkMarketClosed, h0, h6]
      · rcases hf : (usMarketHolidays d.y).find? (fun h => h.1 = d) with _ | p <;>
          simp [checkMarketClosed, h0, h6, hf]
  · intro d
    by_cases h0 : dayOfWeek d = 0
    · have hw : isWeekendDay d = true := by simp [isWeekendDay, h0]
      constructor
      · intro hcl
        have : ClosedType.weekend = ClosedType.holiday := by
          simpa [checkMarketClosed, h0] using hcl.2
        exact absurd this (by simp)
      · intro hmem
        exact absurd (holidayDates_weekday d.y d hmem) (by simp [hw])
    · by_cases h6 : dayOfWeek d = 6
      · have hw : isWeekendDay d = true := by simp [isWeekendDay, h6]
        constructor
        · intro hcl
          have : ClosedType.weekend = ClosedType.holiday := by
            simpa [checkMarketClosed, h0, h6] using hcl.2
          exact absurd this (by simp)
        · intro hmem
          exact absurd (holidayDates_weekday d.y d hmem) (by simp [hw])
      · rcases hf : (usMarketHolidays d.y).find? (fun h => h.1 = d) with _ | p
        · have hnm : d ∉ holidayDates d.y := by
            unfold holidayDates
            intro hm
            obtain ⟨p, hp, hpd⟩ := List.mem_map.mp hm
            have := List.find?_eq_none.mp hf p hp
            simp [hpd] at this
          simp [checkMarketClosed, h0, h6, hf, hnm]
        · have hpd : p.1 = d := by simpa using List.find?_some hf
          have hpm : p ∈ usMarketHolidays d.y := List.mem_of_find?_eq_some hf
          have hmem : d ∈ holidayDates d.y := by
            unfold holidayDates
            exact List.mem_map.mpr ⟨p, hpm, hpd⟩
          simp [checkMarketClosed, h0, h6, hf, hmem]
  · intro d c hval hfind
    unfold getNextTradingDay at hfind
    have hp := List.find?_some hfind
    simp only [Bool.and_eq_true, Bool.not_eq_eq_eq_not, Bool.not_true,
      decide_eq_false_iff_not] at hp
    have hmem := List.mem_of_find?_eq_some hfind
    simp only [List.mem_map, List.mem_range] at hmem
    obtain ⟨i, hi, hc⟩ := hmem
    have hep := (toEpochDay_addDays d hval (i + 1)).2
    rw [hc] at hep
    exact ⟨by omega, by omega, hp.1.1, hp.2⟩
  · intro d hnone i h1 h10
    unfold getNextTradingDay at hnone
    rw [List.find?_eq_none] at hnone
    have hmem : addDays d i ∈ (List.range 10).map (fun j => addDays d (j + 1)) := by
      refine List.mem_map.mpr ⟨i - 1, List.mem_range.mpr (by omega), ?_⟩
      rw [show i - 1 + 1 = i from by omega]
    have hden := hnone _ hmem
    by_cases hw : isWeekendDay (addDays d i) = true
    · exact Or.inl hw
    · right
      have hw2 : isWeekendDay (addDays d i) = false := by simpa using hw
      by_cases hm2 : addDays d i ∈ holidayDates (addDays d i).y
      · exact hm2
      · by_cases hm1 : addDays d i ∈ holidayDates d.y
        · have hyq := holidayDates_year d.y _ hm1
          rwa [hyq]
        · exact absurd (by simp [hw2, hm1, hm2]) hden

/-- Instantiation of `market_closed_and_next_trading_day`: 2026-02-01 is
a Sunday and reported as a weekend closure; from Thursday 2026-07-02 the
next trading day skips the July-3rd holiday and the weekend to Monday
2026-07-06, four days later. -/
theorem market_closed_and_next_trading_day_witness :
    ((checkMarketClosed ⟨2026, 2, 1⟩).isClosed = true ∧
      (checkMarketClosed ⟨2026, 2, 1⟩).type = ClosedType.weekend)
    ∧ (toEpochDay ⟨2026, 7, 2⟩ < toEpochDay ⟨2026, 7, 6⟩ ∧
        toEpochDay ⟨2026, 7, 6⟩ ≤ toEpochDay ⟨2026, 7, 2⟩ + 10 ∧
        isWeekendDay ⟨2026, 7, 6⟩ = false ∧
        (⟨2026, 7, 6⟩ : Ymd) ∉ holidayDates 2026) := by
  refine ⟨(market_closed_and_next_trading_day.1 ⟨2026, 2, 1⟩).mpr (by decide), ?_⟩
  exact market_closed_and_next_trading_day.2.2.1 ⟨2026, 7, 2⟩ ⟨2026, 7, 6⟩
    (by decide) (by decide)

/-! ## Claim C10: convertTimezone is the identity for ET and total -/

/-- Claim C10: `convertTimezone` is the identity for target timezone
`ET`; for every target timezone it is total - an input matching neither
the ` ET` format nor the `HH:MM:SS` shape, or whose extracted date/time
fails the Date parse, is returned unchanged rather than raising - and a
successfully parsed input is converted to UTC with the fixed UTC-5
offset: the printed hour is `(h + 5) % 24` over the unchanged date
string. -/
theorem convertTimezone_identity_total_fixed_offset :
    (∀ (env : FrontendEnv) (s : List Char), convertTimezone env s .ET = s)
    ∧ (∀ (env : FrontendEnv) (s : List Char) (tz : TimezoneOption),
        extractDateTime env s = none → convertTimezone env s tz = s)
    ∧ (∀ (env : FrontendEnv) (s : List Char) (tz : TimezoneOption)
        (dateStr timeStr : List Char),
        extractDateTime env s = some (dateStr, timeStr) →
        (parseDate dateStr = none ∨ parseTime timeStr = none) →
        convertTimezone env s tz = s)
    ∧ (∀ (env : FrontendEnv) (s dateStr timeStr : List Char) (d : Ymd)
        (h m sec : ℕ),
        extractDateTime env s = some (dateStr, timeStr) →
        parseDate dateStr = some d → parseTime timeStr = some (h, m, sec) →
        convertTimezone env s .UTC =
          dateStr ++ [' '] ++ pad2 ((h + 5) % 24) ++ [':'] ++ pad2 m ++ [':'] ++
            pad2 sec ++ [' ', 'U', 'T', 'C']) := by
  refine ⟨fun env s => by simp [convertTimezone], ?_, ?_, ?_⟩
  · intro env s tz hx
    cases tz <;> simp [convertTimezone, hx]
  · intro env s tz dateStr timeStr hx hp
    cases tz
    · simp [convertTimezone]
    all_goals
      rcases hp with hp | hp
      · simp [convertTimezone, hx, hp]
      · rcases hd : parseDate dateStr with _ | d <;>
          simp [convertTimezone, hx, hd, hp]
  · intro env s dateStr timeStr d h m sec hx hd ht
    simp [convertTimezone, hx, hd, ht]

/-- Instantiation of `convertTimezone_identity_total_fixed_offset`: the
sample ET timestamp is unchanged for target ET, an unparseable string is
returned unchanged, and the sample converts to UTC at the fixed +5
hours. -/
theorem convertTimezone_identity_total_fixed_offset_witness :
    convertTimezone sampleFrontendEnv etSample .ET = etSample
    ∧ convertTimezone sampleFrontendEnv "garbage".toList .LOCAL = "garbage".toList
    ∧ convertTimezone sampleFrontendEnv etSample .UTC =
        "2026-02-01 15:30:00 UTC".toList := by
  refine ⟨convertTimezone_identity_total_fixed_offset.1 sampleFrontendEnv etSample,
    convertTimezone_identity_total_fixed_offset.2.1 sampleFrontendEnv
      "garbage".toList .LOCAL (by decide), ?_⟩
  have h4 := convertTimezone_identity_total_fixed_offset.2.2.2 sampleFrontendEnv
    etSample "2026-02-01".toList "10:30:00".toList ⟨2026, 2, 1⟩ 10 30 0
    (by decide) (by decide) (by decide)
  exact h4.trans (by decide)

end TTrade
